import Mathlib

/-!
A shallow embedding of the front end of the `g-dx/helloworld` compiler
(the Clara language): the semantic checker of `src/semantic.go`
(`typeCheck`, `generateStructConstructors` and the operator table) and
the recursive-descent parser of `src/unnamed/part_000` (`Parser.next`,
`Parser.need`, `Parser.syntaxError`, `Parser.Parse` and friends).

The Go code mutates AST nodes in place and accumulates errors in slices;
here `typeCheck` threads the updated node explicitly and returns the
error list, and the parser threads an explicit state record.  Go panics
(nil dereferences, bad casts, calling `typeCheck` on the root node) are
modelled by `Option`/dedicated result constructors.  `typeCheck` is given
a fuel parameter so that it is structurally recursive; the Go function
recurses on the tree (and once on a node it has just rewritten in place),
and every recursive call here spends one unit of fuel.

The type/symbol data model (`Type`, `Symbol`, `SymTab`, `FunctionType`,
`StructType`) and the old-generation symbol table used by the parser are
not part of the repository snapshot under `src/`; they are modelled from
the spec (sections 3, 4.1 and 4.3), as their doc comments note.
-/

namespace Clara

/-- Source token of the semantic checker's era: `lex.Token` with its
file, line, position and literal value. -/
structure Token where
  file : String
  line : Nat
  pos : Nat
  val : String
deriving DecidableEq, Repr

/-- Modelled from the spec (section 3, missing `types.go`): the kind tag
of a type.  `Byte` is the kind of the single-byte type yielded by
indexing a `String`. -/
inductive TypeKind where
  | Integer
  | Boolean
  | String
  | Array
  | Struct
  | Function
  | Nothing
  | Byte
deriving DecidableEq, Repr

mutual
/-- Modelled from the spec (section 3, missing `types.go`): a type is a
kind tag plus, for `Struct`/`Function`/`Array` kinds, an attached
structural descriptor. -/
inductive Ty where
  | mk (kind : TypeKind) (data : TyData)

/-- Modelled from the spec (section 3): the structural descriptor
attached to a type. -/
inductive TyData where
  | noData
  | funcData (f : FunctionTy)
  | structData (s : StructTy)
  | arrayData (elem : Ty)

/-- Modelled from the spec (section 3, missing `types.go`):
`FunctionType` carries display name, argument count, variadic flag,
constructor flag, return type and the parameter scope. -/
inductive FunctionTy where
  | mk (name : String) (argCount : Nat) (isVariadic : Bool) (isConstructor : Bool)
      (ret : Ty) (args : SymTab)

/-- Modelled from the spec (section 3, missing `types.go`):
`StructType` carries the struct name and its ordered field list. -/
inductive StructTy where
  | mk (name : String) (fields : List Symbol)

/-- `Symbol` as `semantic.go` builds it: a name, a storage address/offset
and a type. -/
inductive Symbol where
  | mk (name : String) (addr : Nat) (typ : Ty)

/-- Modelled from the spec (sections 3 and 4.1, missing `symtab.go`): one
scope level mapping names to symbols, linked to an enclosing scope. -/
inductive SymTab where
  | mk (syms : List Symbol) (parent : Option SymTab)
end

def Symbol.name : Symbol → String
  | .mk n _ _ => n

def Symbol.addr : Symbol → Nat
  | .mk _ a _ => a

def Symbol.typ : Symbol → Ty
  | .mk _ _ t => t

def Ty.kind : Ty → TypeKind
  | .mk k _ => k

def Ty.data : Ty → TyData
  | .mk _ d => d

/-- `Type.Is(kind)`: a type "is" a kind via a single predicate check
(spec section 4.3). -/
def Ty.Is (t : Ty) (k : TypeKind) : Bool :=
  t.kind = k

/-- `Type.AsFunction()`: downcast to the function descriptor.  The Go
cast is only legal after confirming the kind; an impossible cast is a
fatal error, modelled as `none`. -/
def Ty.AsFunction : Ty → Option FunctionTy
  | .mk _ (.funcData f) => some f
  | _ => none

/-- `Type.AsStruct()`: downcast to the struct descriptor. -/
def Ty.AsStruct : Ty → Option StructTy
  | .mk _ (.structData s) => some s
  | _ => none

def FunctionTy.name : FunctionTy → String
  | .mk nm _ _ _ _ _ => nm

def FunctionTy.argCount : FunctionTy → Nat
  | .mk _ c _ _ _ _ => c

def FunctionTy.isVariadic : FunctionTy → Bool
  | .mk _ _ v _ _ _ => v

def FunctionTy.isConstructor : FunctionTy → Bool
  | .mk _ _ _ c _ _ => c

def FunctionTy.ret : FunctionTy → Ty
  | .mk _ _ _ _ r _ => r

def FunctionTy.args : FunctionTy → SymTab
  | .mk _ _ _ _ _ a => a

def StructTy.name : StructTy → String
  | .mk nm _ => nm

def StructTy.fields : StructTy → List Symbol
  | .mk _ fs => fs

/-- Modelled from the spec (missing `types.go`): the built-in `Integer`
type constant `intType`. -/
def intType : Ty := .mk .Integer .noData

/-- Modelled from the spec (missing `types.go`): `boolType`. -/
def boolType : Ty := .mk .Boolean .noData

/-- Modelled from the spec (missing `types.go`): `nothingType`, the type
of an empty `return`. -/
def nothingType : Ty := .mk .Nothing .noData

/-- Modelled from the spec (missing `types.go`): `byteType`, the
single-byte type yielded by indexing a `String`. -/
def byteType : Ty := .mk .Byte .noData

/-- Modelled from the spec: the display string of a kind (the Go code
formats kinds and type names into its error messages; the claims do not
depend on the exact rendering). -/
def kindStr : TypeKind → String
  | .Integer => "Integer"
  | .Boolean => "Boolean"
  | .String => "String"
  | .Array => "Array"
  | .Struct => "Struct"
  | .Function => "Function"
  | .Nothing => "Nothing"
  | .Byte => "Byte"

/-- `Type.Name()` as the error messages use it (missing `types.go`,
modelled from the spec as the kind's display string). -/
def Ty.Name (t : Ty) : String :=
  kindStr t.kind

/-- Linear search of one scope level's symbol list by name. -/
def findSym : List Symbol → String → Option Symbol
  | [], _ => none
  | s :: rest, nm => if s.name = nm then some s else findSym rest nm

/-- Modelled from the spec (section 4.1): `Resolve` searches the current
level, then each enclosing level in order; absence is a normal
"not found" result. -/
def SymTab.Resolve : SymTab → String → Option Symbol
  | .mk syms none, nm => findSym syms nm
  | .mk syms (some p), nm =>
    match findSym syms nm with
    | some s => some s
    | none => p.Resolve nm

/-- Modelled from the spec (section 4.1): `Define` inserts into the
current level and fails (leaving the table unchanged) if the name
already exists at that level. -/
def SymTab.Define : SymTab → Symbol → SymTab
  | .mk syms parent, s =>
    if (findSym syms s.name).isSome then .mk syms parent
    else .mk (syms ++ [s]) parent

/-- Helper for `StructType.Offset`: the field with the given name and
its position. -/
def offsetAux : List Symbol → String → Nat → Option (Symbol × Nat)
  | [], _, _ => none
  | s :: rest, nm, i => if s.name = nm then some (s, i) else offsetAux rest nm (i + 1)

/-- Modelled from the spec (section 4.3): `StructType.Offset(fieldName)`
returns the field symbol and its offset, or a not-found sentinel
(`none`).  The offset is modelled as the field's ordinal position. -/
def StructTy.Offset (st : StructTy) (nm : String) : Option (Symbol × Nat) :=
  offsetAux st.fields nm 0

/-- The AST operator kinds `semantic.go` dispatches on. -/
inductive Op where
  | opIf
  | opElseIf
  | opElse
  | opReturn
  | opAnd
  | opOr
  | opAdd
  | opMul
  | opMin
  | opDiv
  | opNot
  | opLit
  | opIdentifier
  | opFuncCall
  | opGt
  | opLt
  | opEq
  | opFuncDcl
  | opDot
  | opArray
  | opRoot
  | opError
  | opStruct
deriving DecidableEq, Repr

/-- The AST node (spec section 3): operator tag, originating token,
optional `left`/`right` children, child statements, parameters, the
active scope, the resolved symbol and the resolved type (absent until
the checker fills it in). -/
inductive Node where
  | mk (op : Op) (token : Token) (left : Option Node) (right : Option Node)
      (stmts : List Node) (params : List Node) (symtab : SymTab)
      (sym : Option Symbol) (typ : Option Ty)

def Node.op : Node → Op
  | .mk o _ _ _ _ _ _ _ _ => o

def Node.token : Node → Token
  | .mk _ t _ _ _ _ _ _ _ => t

def Node.left : Node → Option Node
  | .mk _ _ l _ _ _ _ _ _ => l

def Node.right : Node → Option Node
  | .mk _ _ _ r _ _ _ _ _ => r

def Node.stmts : Node → List Node
  | .mk _ _ _ _ s _ _ _ _ => s

def Node.params : Node → List Node
  | .mk _ _ _ _ _ p _ _ _ => p

def Node.symtab : Node → SymTab
  | .mk _ _ _ _ _ _ st _ _ => st

def Node.sym : Node → Option Symbol
  | .mk _ _ _ _ _ _ _ s _ => s

def Node.typ : Node → Option Ty
  | .mk _ _ _ _ _ _ _ _ t => t

/-- `Node.hasType()`: the node received a type. -/
def Node.hasType (n : Node) : Bool :=
  n.typ.isSome

/-- Rebuild a node with a new resolved symbol and type (the Go code
assigns `n.sym`/`n.typ` in place). -/
def Node.withSymTyp : Node → Option Symbol → Option Ty → Node
  | .mk op tok l r st pa tab _ _, s, t => .mk op tok l r st pa tab s t

/-- The semantic errors of `semantic.go`, one constructor per error
message constant, carrying the token and the formatted-in values. -/
inductive SemErr where
  | undefinedSym (t : Token)
  | notFunc (t : Token)
  | tooManyArgs (t : Token)
  | tooFewArgs (t : Token)
  | unknownVar (t : Token)
  | structNamingLower (t : Token)
  | notStruct (t : Token)
  | structHasNoField (t : Token) (strct : String)
  | invalidDotSelection (t : Token)
  | invalidOperatorType (t : Token) (typeName : String) (opVal : String)
  | mismatchedTypes (t : Token) (first second : String)
  | nonIntegerIndex (t : Token) (kindName : String)
deriving DecidableEq, Repr

/-- The operator legality table `operatorTypes` of `semantic.go`: the
operand kinds each binary operator accepts (a missing operator maps to
the empty set, as a missing Go map key yields nil). -/
def operatorTypes : Op → List TypeKind
  | .opAdd => [.Integer, .String, .Array]
  | .opMin => [.Integer]
  | .opMul => [.Integer]
  | .opDiv => [.Integer]
  | .opOr => [.Boolean]
  | .opAnd => [.Boolean]
  | _ => []

/-- `OperatorTypes.isValid`: the kind is one of the operator's accepted
kinds. -/
def isValidOperator (op : Op) (tk : TypeKind) : Bool :=
  (operatorTypes op).any (fun t => t == tk)

/-- Type check every node of a list in order, concatenating the errors
(the Go loops `for _, stmt := range n.stmts { errs = append(errs,
typeCheck(stmt)...) }`). -/
def checkAll (tc : Node → Option (Node × List SemErr)) :
    List Node → Option (List Node × List SemErr)
  | [] => some ([], [])
  | x :: xs =>
    match tc x with
    | none => none
    | some (x', ex) =>
      match checkAll tc xs with
      | none => none
      | some (xs', exs) => some (x' :: xs', ex ++ exs)

/-- One dispatch of `typeCheck` (the body of the Go function), with `tc`
standing for the recursive calls.  `fctx` is the ambient `fn` global
(the function being checked, read by the `opReturn` case).  Returns the
updated node and the accumulated errors; `none` models a Go panic
(nil dereference, impossible cast, `opRoot`, or the `default` branch). -/
def typeCheckStep (tc : Option FunctionTy → Node → Option (Node × List SemErr))
    (fctx : Option FunctionTy) (n : Node) : Option (Node × List SemErr) :=
  match n with
  | .mk op tok lft rgt stmts params tab sym typ =>
    match op with
    | .opIf | .opElseIf =>
      match lft with
      | none => none
      | some l =>
        match tc fctx l with
        | none => none
        | some (l', el) =>
          match l'.typ with
          | none => some (Node.mk op tok (some l') rgt stmts params tab sym typ, el)
          | some lt =>
            if lt.kind ≠ TypeKind.Boolean then
              some (Node.mk op tok (some l') rgt stmts params tab sym typ,
                el ++ [SemErr.mismatchedTypes l'.token (kindStr lt.kind) (kindStr TypeKind.Boolean)])
            else
              match checkAll (tc fctx) stmts with
              | none => none
              | some (stmts', es) =>
                match rgt with
                | none => some (Node.mk op tok (some l') none stmts' params tab sym typ, el ++ es)
                | some r =>
                  match tc fctx r with
                  | none => none
                  | some (r', er) =>
                    some (Node.mk op tok (some l') (some r') stmts' params tab sym typ,
                      el ++ es ++ er)
    | .opElse =>
      match checkAll (tc fctx) stmts with
      | none => none
      | some (stmts', es) => some (Node.mk op tok lft rgt stmts' params tab sym typ, es)
    | .opReturn =>
      match lft with
      | none => some (Node.mk op tok none rgt stmts params tab sym (some nothingType), [])
      | some l =>
        match tc fctx l with
        | none => none
        | some (l', el) =>
          match l'.typ with
          | none => some (Node.mk op tok (some l') rgt stmts params tab sym typ, el)
          | some lt =>
            match fctx with
            | none => none
            | some f =>
              if ¬ f.ret.Is lt.kind then
                some (Node.mk op tok (some l') rgt stmts params tab sym typ,
                  el ++ [SemErr.mismatchedTypes l'.token (kindStr lt.kind) (kindStr f.ret.kind)])
              else
                some (Node.mk op tok (some l') rgt stmts params tab sym (some lt), el)
    | .opAnd | .opOr | .opAdd | .opMul | .opMin | .opDiv =>
      match lft with
      | none => none
      | some l =>
        match rgt with
        | none => none
        | some r =>
          match tc fctx l with
          | none => none
          | some (l', el) =>
            match tc fctx r with
            | none => none
            | some (r', er) =>
              match l'.typ, r'.typ with
              | some lt, some rt =>
                if ¬ isValidOperator op lt.kind then
                  some (Node.mk op tok (some l') (some r') stmts params tab sym typ,
                    el ++ er ++ [SemErr.invalidOperatorType l'.token lt.Name tok.val])
                else if ¬ isValidOperator op rt.kind then
                  some (Node.mk op tok (some l') (some r') stmts params tab sym typ,
                    el ++ er ++ [SemErr.invalidOperatorType r'.token rt.Name tok.val])
                else
                  some (Node.mk op tok (some l') (some r') stmts params tab sym (some lt),
                    el ++ er ++
                      (if lt.kind ≠ rt.kind then
                        [SemErr.mismatchedTypes l'.token lt.Name rt.Name]
                      else []))
              | _, _ =>
                some (Node.mk op tok (some l') (some r') stmts params tab sym typ, el ++ er)
    | .opNot =>
      match lft with
      | none => none
      | some l =>
        match tc fctx l with
        | none => none
        | some (l', el) =>
          match l'.typ with
          | none => some (Node.mk op tok (some l') rgt stmts params tab sym typ, el)
          | some lt =>
            if lt.kind ≠ TypeKind.Boolean then
              some (Node.mk op tok (some l') rgt stmts params tab sym typ,
                el ++ [SemErr.mismatchedTypes l'.token (kindStr lt.kind) (kindStr TypeKind.Boolean)])
            else
              some (Node.mk op tok (some l') rgt stmts params tab sym (some lt), el)
    | .opLit =>
      match sym with
      | none => none
      | some s => some (Node.mk op tok lft rgt stmts params tab sym (some s.typ), [])
    | .opIdentifier =>
      match sym with
      | some s => some (Node.mk op tok lft rgt stmts params tab (some s) (some s.typ), [])
      | none =>
        match tab.Resolve tok.val with
        | none => some (n, [SemErr.unknownVar tok])
        | some s => some (Node.mk op tok lft rgt stmts params tab (some s) (some s.typ), [])
    | .opFuncCall =>
      match tab.Resolve tok.val with
      | none => some (n, [SemErr.undefinedSym tok])
      | some s =>
        if ¬ s.typ.Is TypeKind.Function then
          some (n, [SemErr.notFunc tok])
        else
          match s.typ.AsFunction with
          | none => none
          | some ft =>
            if stmts.length < ft.argCount then
              some (n, [SemErr.tooFewArgs tok])
            else if stmts.length > ft.argCount ∧ ft.isVariadic = false then
              some (n, [SemErr.tooManyArgs tok])
            else
              match checkAll (tc fctx) stmts with
              | none => none
              | some (stmts', es) =>
                some (Node.mk op tok lft rgt stmts' params tab (some s) (some ft.ret), es)
    | .opGt | .opLt | .opEq =>
      match lft with
      | none => none
      | some l =>
        match rgt with
        | none => none
        | some r =>
          match tc fctx l with
          | none => none
          | some (l', el) =>
            match tc fctx r with
            | none => none
            | some (r', er) =>
              match l'.typ, r'.typ with
              | some lt, some rt =>
                if lt.kind ≠ rt.kind then
                  some (Node.mk op tok (some l') (some r') stmts params tab sym typ,
                    el ++ er ++ [SemErr.mismatchedTypes l'.token (kindStr lt.kind) (kindStr rt.kind)])
                else
                  some (Node.mk op tok (some l') (some r') stmts params tab sym (some boolType),
                    el ++ er)
              | _, _ =>
                some (Node.mk op tok (some l') (some r') stmts params tab sym typ, el ++ er)
    | .opFuncDcl =>
      match checkAll (tc fctx) params with
      | none => none
      | some (params', eps) =>
        match checkAll (tc fctx) stmts with
        | none => none
        | some (stmts', es) =>
          match sym with
          | none => none
          | some s =>
            some (Node.mk op tok lft rgt stmts' params' tab sym (some s.typ), eps ++ es)
    | .opDot =>
      match lft with
      | none => none
      | some l =>
        match tc fctx l with
        | none => none
        | some (l', el) =>
          match l'.typ with
          | none => some (Node.mk op tok (some l') rgt stmts params tab sym typ, el)
          | some _ =>
            match rgt with
            | none => none
            | some r =>
              if r.op = Op.opFuncCall then
                match tc fctx (Node.mk Op.opFuncCall r.token none none
                    (l' :: r.stmts) params r.symtab sym typ) with
                | none => none
                | some (m', em) => some (m', el ++ em)
              else if r.op = Op.opIdentifier then
                match l'.sym with
                | none => none
                | some ls =>
                  if ls.typ.Is TypeKind.String ∧ r.token.val = "length" then
                    some (Node.mk op tok (some l')
                      (some (r.withSymTyp (some (Symbol.mk "length" 0 intType)) (some intType)))
                      stmts params tab sym (some intType), el)
                  else if ¬ ls.typ.Is TypeKind.Struct then
                    some (Node.mk op tok (some l') (some r) stmts params tab sym typ,
                      el ++ [SemErr.notStruct l'.token])
                  else
                    match ls.typ.AsStruct with
                    | none => none
                    | some strct =>
                      match strct.Offset r.token.val with
                      | none =>
                        some (Node.mk op tok (some l') (some r) stmts params tab sym typ,
                          el ++ [SemErr.structHasNoField r.token strct.name])
                      | some (fs, off) =>
                        some (Node.mk op tok (some l')
                          (some (r.withSymTyp (some (Symbol.mk fs.name off fs.typ)) (some fs.typ)))
                          stmts params tab (some (Symbol.mk fs.name off fs.typ)) (some fs.typ), el)
              else
                some (Node.mk op tok (some l') (some r) stmts params tab sym typ,
                  el ++ [SemErr.invalidDotSelection r.token])
    | .opArray =>
      match lft with
      | none => none
      | some l =>
        match rgt with
        | none => none
        | some r =>
          match tc fctx l with
          | none => none
          | some (l', el) =>
            match tc fctx r with
            | none => none
            | some (r', er) =>
              match l'.typ, r'.typ with
              | some lt, some rt =>
                if ¬ rt.Is TypeKind.Integer then
                  some (Node.mk op tok (some l') (some r') stmts params tab sym typ,
                    el ++ er ++ [SemErr.nonIntegerIndex r'.token (kindStr rt.kind)])
                else
                  some (Node.mk op tok (some l') (some r') stmts params tab sym
                    (some (if lt.Is TypeKind.String then byteType else lt)), el ++ er)
              | _, _ =>
                some (Node.mk op tok (some l') (some r') stmts params tab sym typ, el ++ er)
    | .opRoot => none
    | .opError => some (n, [])
    | .opStruct => none

/-- The `typeCheck` pass of `semantic.go`, fuelled: each recursive call
of the Go function (children, statement lists, and the re-dispatch after
the dot-to-call rewrite) spends one unit of fuel.  `none` with positive
fuel models a Go panic. -/
def typeCheck : Nat → Option FunctionTy → Node → Option (Node × List SemErr)
  | 0, _, _ => none
  | fuel + 1, fctx, n => typeCheckStep (fun c m => typeCheck fuel c m) fctx n

/-- Uppercase the first letter the way `strings.ToUpper` does on the
one-byte slice `name[:1]` (ASCII; the lexer's identifiers are ASCII). -/
def upperChar (c : Char) : Char :=
  if 'a' ≤ c ∧ c ≤ 'z' then Char.ofNat (c.toNat - 32) else c

/-- The struct-constructor synthesis visit of `semantic.go`
(`generateStructConstructors`): on a struct-declaration node it checks
the naming rule and, when it holds, defines the constructor symbol in
the root scope and appends a synthetic function-declaration node to the
root's children.  Returns the updated root and the error, if any;
`none` models the Go panics (empty struct name, nil `n.sym`). -/
def generateStructConstructors (root : Node) (n : Node) :
    Option (Node × Option SemErr) :=
  if n.op = Op.opStruct then
    match n.token.val.data with
    | [] => none
    | c :: rest =>
      if upperChar c = c then
        some (root, some (SemErr.structNamingLower n.token))
      else
        match n.sym with
        | none => none
        | some s =>
          let constructorName := String.mk (upperChar c :: rest)
          let fnSym := Symbol.mk constructorName 0
            (Ty.mk TypeKind.Function (TyData.funcData
              (FunctionTy.mk constructorName n.stmts.length false true s.typ n.symtab)))
          some (Node.mk root.op root.token root.left root.right
            (root.stmts ++ [Node.mk Op.opFuncDcl (Token.mk "" 0 0 constructorName)
              none none [] n.stmts n.symtab (some fnSym) none])
            root.params (root.symtab.Define fnSym) root.sym root.typ, none)
  else
    some (root, none)

/-! The parser of `src/unnamed/part_000`.  The Go parser mutates a
`Parser` struct (`pos`, `tokens`, `errs`, `discard`, `symtab`) and uses
`panic(errUnexpectedEof)` as a non-local abort recovered only in
`Parse`; here every parsing function maps an explicit state to a `PRes`
result whose `eofPanic` constructor is that abort (and whose `crash`
constructor is any other Go panic, such as an index out of range).  The
loops (`Parse`'s token loop, the body loop of `fnDeclaration`, the
argument loop of `parseArgs` and the scan loop of `need`) are fuelled. -/

/-- The lexical token kinds `lex.Kind` the parser dispatches on. -/
inductive LKind where
  | Fn
  | Identifier
  | LParen
  | RParen
  | LBrace
  | RBrace
  | Comma
  | Integer
  | String
  | EOF
deriving DecidableEq, Repr

/-- A lexical token: kind, literal value and source position. -/
structure LToken where
  kind : LKind
  val : String
  file : String
  line : Nat
  pos : Nat
deriving DecidableEq, Repr

/-- The parser's errors: `syntaxErrMsg` (unexpected token with the
expected kinds) and `errRedeclaredMsg`. -/
inductive PErr where
  | unexpectedTok (t : LToken) (expected : List LKind)
  | redeclared (t : LToken)
deriving DecidableEq, Repr

/-- Modelled from the spec (section 4.1, missing old-generation
`symtab.go`): the symbol categories the parser resolves against
(`symFnDecl`, `symIntegerLit`, `symStrLit`). -/
inductive PSymCat where
  | fnDecl
  | intLitC
  | strLitC
deriving DecidableEq, Repr

/-- The parser generation's symbols: `Function{name, 0, 0}`,
`IntegerLiteralSymbol{val}` and `StringLiteralSymbol{val}`. -/
inductive PSym where
  | function (name : String) (a b : Int)
  | intLit (v : Int)
  | strLit (v : String)
deriving DecidableEq, Repr

/-- Modelled from the spec (section 4.1): a symbol answers for a
category-plus-name lookup key; literal pools are keyed by the literal
text. -/
def PSym.accepts (s : PSym) (cat : PSymCat) (key : String) : Bool :=
  match s, cat with
  | .function nm _ _, .fnDecl => nm = key
  | .intLit v, .intLitC => toString v = key
  | .strLit v, .strLitC => v = key
  | _, _ => false

/-- Modelled from the spec (section 4.1): `symtab.Resolve(symType, name)`
over the single scope this parser generation uses. -/
def presolve : List PSym → PSymCat → String → Option PSym
  | [], _, _ => none
  | s :: rest, cat, key => if s.accepts cat key then some s else presolve rest cat key

/-- The parser generation's AST operators (`part_001` plus
`opIntegerLit`, which `part_000` uses). -/
inductive POp where
  | opFuncDcl
  | opFuncCall
  | opStrLit
  | opIntegerLit
  | opRoot
deriving DecidableEq, Repr

/-- The parser generation's AST node (`part_001`): token, `left`/`right`
children, child statements (`stats`, which may hold Go nils) and the
resolved symbol `part_000` stores. -/
inductive PNode where
  | mk (token : Option LToken) (left : Option PNode) (right : Option PNode)
      (stats : List (Option PNode)) (op : POp) (sym : Option PSym)

def PNode.token : PNode → Option LToken
  | .mk t _ _ _ _ _ => t

def PNode.stats : PNode → List (Option PNode)
  | .mk _ _ _ s _ _ => s

def PNode.op : PNode → POp
  | .mk _ _ _ _ o _ => o

def PNode.sym : PNode → Option PSym
  | .mk _ _ _ _ _ s => s

/-- `Node.Add`: append one child statement. -/
def PNode.add : PNode → Option PNode → PNode
  | .mk t l r st o s, x => .mk t l r (st ++ [x]) o s

/-- The `Parser` struct's mutable fields. -/
structure PState where
  pos : Nat
  tokens : List LToken
  errs : List PErr
  discard : Bool
  symtab : List PSym
deriving Repr

/-- Result of one parsing computation: a value and the state after it,
the `errUnexpectedEof` panic (carrying the state at the panic, whose
`errs` the top-level recovery returns), any other Go panic, or fuel
exhaustion of the model. -/
inductive PRes (α : Type) where
  | ok (a : α) (st : PState)
  | eofPanic (st : PState)
  | crash (st : PState)
  | fuelOut

/-- Sequencing of parsing computations: a panic short-circuits, so no
logic sequenced after it runs. -/
def PRes.bind {α β : Type} : PRes α → (α → PState → PRes β) → PRes β
  | .ok a st, k => k a st
  | .eofPanic st, _ => .eofPanic st
  | .crash st, _ => .crash st
  | .fuelOut, _ => .fuelOut

/-- Placeholder token for list reads that the surrounding guard has
already proven in range (Go indexes the slice directly). -/
def defTok : LToken :=
  { kind := .EOF, val := "", file := "", line := 0, pos := 0 }

/-- `Parser.next()`: panic with `errUnexpectedEof` when no more input,
otherwise yield the current token and advance. -/
def pnext (st : PState) : PRes LToken :=
  if st.pos + 1 ≥ st.tokens.length then .eofPanic st
  else .ok (st.tokens.getD st.pos defTok) { st with pos := st.pos + 1 }

/-- `Parser.syntaxError(expected...)`: in discard mode do nothing;
otherwise enter discard mode and record one syntax error naming the
current token and the expected kinds. -/
def synError (expected : List LKind) (st : PState) : PState :=
  if st.discard then st
  else { st with
         discard := true
         errs := st.errs ++ [PErr.unexpectedTok (st.tokens.getD st.pos defTok) expected] }

/-- `Parser.need(k)`: scan forward, recording (at most) one syntax error
via `syntaxError` and advancing one token per mismatch, until the
current token matches `k`; then leave discard mode and consume it. -/
def needF : Nat → LKind → PState → PRes LToken
  | 0, _, _ => .fuelOut
  | fuel + 1, k, st =>
    match st.tokens.get? st.pos with
    | none => .crash st
    | some t =>
      if t.kind = k then
        pnext { st with discard := false }
      else
        (pnext (synError [k] st)).bind fun _ st' => needF fuel k st'

/-- `Parser.match(k)`: consume the current token (leaving discard mode)
when it matches, else report `false` without consuming. -/
def pmatch (k : LKind) (st : PState) : PRes Bool :=
  match st.tokens.get? st.pos with
  | none => .crash st
  | some t =>
    if t.kind = k then
      (pnext st).bind fun _ st' => .ok true { st' with discard := false }
    else
      .ok false st

/-- `Parser.parseArg()`: an integer or string literal argument, interned
in the symbol table; any other token is a syntax error and yields a Go
nil (`none`) argument.  A literal `strconv.ParseInt` cannot parse (or
one outside 64 bits) is a Go panic. -/
def parseArg (st : PState) : PRes (Option PNode) :=
  match st.tokens.get? st.pos with
  | none => .crash st
  | some t =>
    match t.kind with
    | .Integer =>
      (pnext st).bind fun arg st1 =>
        match presolve st1.symtab PSymCat.intLitC arg.val with
        | some s => .ok (some (PNode.mk (some arg) none none [] POp.opIntegerLit (some s))) st1
        | none =>
          match arg.val.toInt? with
          | none => .crash st1
          | some i =>
            if i < -(2 ^ 63) ∨ 2 ^ 63 ≤ i then .crash st1
            else
              .ok (some (PNode.mk (some arg) none none [] POp.opIntegerLit (some (PSym.intLit i))))
                { st1 with symtab := st1.symtab ++ [PSym.intLit i] }
    | .String =>
      (pnext st).bind fun arg st1 =>
        match presolve st1.symtab PSymCat.strLitC arg.val with
        | some s => .ok (some (PNode.mk (some arg) none none [] POp.opStrLit (some s))) st1
        | none =>
          .ok (some (PNode.mk (some arg) none none [] POp.opStrLit (some (PSym.strLit arg.val))))
            { st1 with symtab := st1.symtab ++ [PSym.strLit arg.val] }
    | _ =>
      (pnext (synError [LKind.Integer, LKind.String] st)).bind fun _ st' => .ok none st'

/-- The `for p.match(lex.Comma)` loop of `parseArgs`. -/
def argsLoop : Nat → List (Option PNode) → PState → PRes (List (Option PNode))
  | 0, _, _ => .fuelOut
  | fuel + 1, acc, st =>
    (pmatch LKind.Comma st).bind fun b st' =>
      if b then (parseArg st').bind fun a st2 => argsLoop fuel (acc ++ [a]) st2
      else .ok acc st'

/-- `Parser.parseArgs()`: parenthesised, comma-separated argument
list. -/
def parseArgs (fuel : Nat) (st : PState) : PRes (List (Option PNode)) :=
  (needF fuel LKind.LParen st).bind fun _ st1 =>
    match st1.tokens.get? st1.pos with
    | none => .crash st1
    | some t =>
      if t.kind ≠ LKind.EOF ∧ t.kind ≠ LKind.RParen then
        (parseArg st1).bind fun a st2 =>
          (argsLoop fuel [a] st2).bind fun args st3 =>
            (needF fuel LKind.RParen st3).bind fun _ st4 => .ok args st4
      else
        (needF fuel LKind.RParen st1).bind fun _ st2 => .ok [] st2

/-- `Parser.fnCallNode`: build a call node, resolving the callee
(`TEMPORARY WORKAROUND` in the Go: the found flag is ignored). -/
def fnCallNode (tok : LToken) (args : List (Option PNode)) (st : PState) : PRes PNode :=
  .ok (PNode.mk (some tok) none none args POp.opFuncCall (presolve st.symtab PSymCat.fnDecl tok.val)) st

/-- `Parser.fnCall()`. -/
def fnCall (fuel : Nat) (st : PState) : PRes PNode :=
  (needF fuel LKind.Identifier st).bind fun tok st1 =>
    (parseArgs fuel st1).bind fun args st2 => fnCallNode tok args st2

/-- `Parser.fnDclNode`: record a redeclaration error when the name is
already declared (reusing the found symbol), else define a fresh
`Function` symbol. -/
def fnDclNode (tok : LToken) (fnCalls : List PNode) (st : PState) : PRes PNode :=
  match presolve st.symtab PSymCat.fnDecl tok.val with
  | some s =>
    .ok (PNode.mk (some tok) none none (fnCalls.map some) POp.opFuncDcl (some s))
      { st with errs := st.errs ++ [PErr.redeclared tok] }
  | none =>
    .ok (PNode.mk (some tok) none none (fnCalls.map some) POp.opFuncDcl
        (some (PSym.function tok.val 0 0)))
      { st with symtab := st.symtab ++ [PSym.function tok.val 0 0] }

/-- The `for p.isNot(lex.RBrace)` body loop of `fnDeclaration`. -/
def bodyLoop : Nat → List PNode → PState → PRes (List PNode)
  | 0, _, _ => .fuelOut
  | fuel + 1, acc, st =>
    match st.tokens.get? st.pos with
    | none => .crash st
    | some t =>
      if t.kind ≠ LKind.RBrace then
        if t.kind = LKind.Identifier then
          (fnCall fuel st).bind fun nd st' => bodyLoop fuel (acc ++ [nd]) st'
        else
          (pnext (synError [LKind.Identifier, LKind.RBrace] st)).bind fun _ st' =>
            bodyLoop fuel acc st'
      else .ok acc st

/-- `Parser.fnDeclaration()`. -/
def fnDeclaration (fuel : Nat) (st : PState) : PRes PNode :=
  (needF fuel LKind.Fn st).bind fun _ st1 =>
    (needF fuel LKind.Identifier st1).bind fun name st2 =>
      (needF fuel LKind.LParen st2).bind fun _ st3 =>
        (needF fuel LKind.RParen st3).bind fun _ st4 =>
          (needF fuel LKind.LBrace st4).bind fun _ st5 =>
            (bodyLoop fuel [] st5).bind fun fnCalls st6 =>
              (needF fuel LKind.RBrace st6).bind fun _ st7 =>
                fnDclNode name fnCalls st7

/-- What `Parser.Parse` hands back to the driver: the error list and the
root (the normal return, and what the `onUnexpectedEof` recovery makes
of the `errUnexpectedEof` panic), a genuine crash (any other panic,
which the recovery re-raises), or fuel exhaustion of the model. -/
inductive ParseOut where
  | returned (errs : List PErr) (root : PNode)
  | crashed (st : PState)
  | fuelOut

/-- The token loop of `Parser.Parse` plus the final `need(EOF)`.  An
`eofPanic` from any depth is absorbed here, exactly once, into a
`returned` carrying the error list accumulated at the moment of the
panic and the root built so far (the Go recovery assigns the named
return values). -/
def parseLoopF : Nat → PNode → PState → ParseOut
  | 0, _, _ => .fuelOut
  | fuel + 1, root, st =>
    match st.tokens.get? st.pos with
    | none => .crashed st
    | some t =>
      if t.kind ≠ LKind.EOF then
        if t.kind = LKind.Fn then
          match fnDeclaration fuel st with
          | .ok nd st' => parseLoopF fuel (root.add (some nd)) st'
          | .eofPanic st' => .returned st'.errs root
          | .crash st' => .crashed st'
          | .fuelOut => .fuelOut
        else
          match pnext (synError [LKind.Fn, LKind.EOF] st) with
          | .ok _ st' => parseLoopF fuel root st'
          | .eofPanic st' => .returned st'.errs root
          | .crash st' => .crashed st'
          | .fuelOut => .fuelOut
      else
        match needF fuel LKind.EOF st with
        | .ok _ st' => .returned st'.errs root
        | .eofPanic st' => .returned st'.errs root
        | .crash st' => .crashed st'
        | .fuelOut => .fuelOut

/-- `NewParser`: intern the predefined (standard library) nodes'
symbols. -/
def initSymtab (extra : List PNode) : List PSym :=
  extra.foldl (fun t n => match n.sym with | some s => t ++ [s] | none => t) []

/-- The root node `Parse` builds before its loop: one child per
predefined declaration. -/
def initRoot (extra : List PNode) : PNode :=
  PNode.mk none none none (extra.map some) POp.opRoot none

/-- The parser state `NewParser` hands to `Parse`. -/
def initState (tokens : List LToken) (extra : List PNode) : PState :=
  { pos := 0, tokens := tokens, errs := [], discard := false, symtab := initSymtab extra }

/-- `Parser.Parse()` for a fresh parser over the given tokens and
predefined declarations. -/
def Parse (fuel : Nat) (tokens : List LToken) (extra : List PNode) : ParseOut :=
  parseLoopF fuel (initRoot extra) (initState tokens extra)

/-! Concrete programs used to instantiate the theorems: a scope with a
2-arity non-variadic function `f`, an unresolvable identifier `u`,
literals, an `Array<Integer>` variable, a `String`-returning function
`g`, a struct `point`, and small token streams for the parser. -/

def tokF : Token := ⟨"t.cl", 1, 1, "f"⟩

def tokU : Token := ⟨"t.cl", 1, 3, "u"⟩

def fnTy2 : FunctionTy := .mk "f" 2 false false intType (SymTab.mk [] none)

def symF : Symbol := .mk "f" 0 (.mk .Function (.funcData fnTy2))

def tabF : SymTab := .mk [symF] none

def argU : Node := .mk .opIdentifier tokU none none [] [] tabF none none

def callNode1 : Node := .mk .opFuncCall tokF none none [argU] [] tabF none none

def callNode3 : Node := .mk .opFuncCall tokF none none [argU, argU, argU] [] tabF none none

def tokC : Token := ⟨"t.cl", 2, 5, "1"⟩

def litInt : Node := .mk .opLit tokC none none [] [] tabF (some (Symbol.mk "1" 0 intType)) none

def ifTok : Token := ⟨"t.cl", 2, 1, "if"⟩

def ifNode : Node := .mk .opIf ifTok (some litInt) none [argU] [] tabF none none

def tokS1 : Token := ⟨"t.cl", 3, 1, "a"⟩

def tokS2 : Token := ⟨"t.cl", 3, 7, "b"⟩

def strType : Ty := .mk .String .noData

def litS1 : Node := .mk .opLit tokS1 none none [] [] tabF (some (Symbol.mk "a" 0 strType)) none

def litS2 : Node := .mk .opLit tokS2 none none [] [] tabF (some (Symbol.mk "b" 0 strType)) none

def andTok : Token := ⟨"t.cl", 3, 4, "and"⟩

def andNode : Node := .mk .opAnd andTok (some litS1) (some litS2) [] [] tabF none none

def addTok : Token := ⟨"t.cl", 4, 3, "+"⟩

def addNode : Node := .mk .opAdd addTok (some litInt) (some litS2) [] [] tabF none none

def arrTy : Ty := .mk .Array (.arrayData intType)

def tokXs : Token := ⟨"t.cl", 5, 1, "xs"⟩

def identXs : Node :=
  .mk .opIdentifier tokXs none none [] [] (SymTab.mk [Symbol.mk "xs" 0 arrTy] none) none none

def idxTok : Token := ⟨"t.cl", 5, 3, "["⟩

def idxNode : Node := .mk .opArray idxTok (some identXs) (some litInt) [] [] tabF none none

def identSx : Node :=
  .mk .opIdentifier tokXs none none [] [] (SymTab.mk [Symbol.mk "xs" 0 strType] none) none none

def idxNodeS : Node := .mk .opArray idxTok (some identSx) (some litInt) [] [] tabF none none

def idxNodeBad : Node := .mk .opArray idxTok (some identXs) (some litS2) [] [] tabF none none

def fnTyS : FunctionTy := .mk "g" 0 false false strType (SymTab.mk [] none)

def symG : Symbol := .mk "g" 0 (.mk .Function (.funcData fnTyS))

def tabG : SymTab := .mk [symG] none

def tokG : Token := ⟨"t.cl", 6, 1, "g"⟩

def callG : Node := .mk .opFuncCall tokG none none [] [] tabG none none

def tokLen : Token := ⟨"t.cl", 6, 5, "length"⟩

def identLen : Node := .mk .opIdentifier tokLen none none [] [] tabG none none

def dotTok : Token := ⟨"t.cl", 6, 4, "."⟩

def dotNode : Node := .mk .opDot dotTok (some callG) (some identLen) [] [] tabG none none

def dotNodeL : Node := .mk .opDot dotTok (some litS1) (some identLen) [] [] tabG none none

def structTok : Token := ⟨"t.cl", 7, 1, "point"⟩

def ptTy : Ty := .mk .Struct (.structData (.mk "point" []))

def fldX : Node := .mk .opIdentifier (Token.mk "t.cl" 7 7 "x") none none [] [] tabG none none

def structNode : Node :=
  .mk .opStruct structTok none none [fldX, fldX] [] (SymTab.mk [] none)
    (some (Symbol.mk "point" 0 ptTy)) none

def rootNode : Node :=
  .mk .opRoot (Token.mk "" 0 0 "") none none [] [] (SymTab.mk [] none) none none

def structTokU : Token := ⟨"t.cl", 8, 1, "Point"⟩

def structNodeU : Node :=
  .mk .opStruct structTokU none none [fldX] [] (SymTab.mk [] none)
    (some (Symbol.mk "Point" 0 ptTy)) none

def fnTyC : FunctionTy := .mk "call" 2 false false intType (SymTab.mk [] none)

def symC : Symbol := .mk "call" 0 (.mk .Function (.funcData fnTyC))

def tokA : Token := ⟨"t.cl", 9, 1, "a"⟩

def symA : Symbol := .mk "a" 0 strType

def tabC : SymTab := .mk [symC, symA] none

def identA : Node := .mk .opIdentifier tokA none none [] [] tabC none none

def identA' : Node := .mk .opIdentifier tokA none none [] [] tabC (some symA) (some strType)

def tokCall : Token := ⟨"t.cl", 9, 3, "call"⟩

def callRight : Node := .mk .opFuncCall tokCall none none [litInt] [] tabC none none

def dotCallNode : Node :=
  .mk .opDot (Token.mk "t.cl" 9 2 ".") (some identA) (some callRight) [] [] tabC none none

def rewrittenCallNode : Node :=
  .mk .opFuncCall tokCall none none (identA' :: [litInt]) [] tabC none none

def directCallNode : Node := .mk .opFuncCall tokCall none none [identA, litInt] [] tabC none none

def tkI : LToken := ⟨.Identifier, "x", "t.cl", 1, 1⟩

def tkFn : LToken := ⟨.Fn, "fn", "t.cl", 1, 3⟩

def abortedState : PState :=
  { pos := 1, tokens := [tkI, tkFn]
    errs := [PErr.unexpectedTok tkI [LKind.Fn, LKind.EOF]], discard := true, symtab := [] }

def tkL : LToken := ⟨.LParen, "(", "t.cl", 1, 5⟩

def tkR : LToken := ⟨.RParen, ")", "t.cl", 1, 6⟩

def tkEofTok : LToken := ⟨.EOF, "", "t.cl", 1, 9⟩

def stTest : PState :=
  { pos := 0, tokens := [tkI, tkL, tkR, tkEofTok], errs := [], discard := false, symtab := [] }

def litInt' : Node :=
  .mk .opLit tokC none none [] [] tabF (some (Symbol.mk "1" 0 intType)) (some intType)

def litS1' : Node :=
  .mk .opLit tokS1 none none [] [] tabF (some (Symbol.mk "a" 0 strType)) (some strType)

def litS2' : Node :=
  .mk .opLit tokS2 none none [] [] tabF (some (Symbol.mk "b" 0 strType)) (some strType)

def identXs' : Node :=
  .mk .opIdentifier tokXs none none [] [] (SymTab.mk [Symbol.mk "xs" 0 arrTy] none)
    (some (Symbol.mk "xs" 0 arrTy)) (some arrTy)

/-- The constructor name `generateStructConstructors` builds:
the struct name with its first letter upper-cased. -/
def structCtorName (c : Char) (rest : List Char) : String :=
  String.mk (upperChar c :: rest)

/-- The constructor symbol `generateStructConstructors` defines for a
struct node `n` (with struct symbol `s`) named `c :: rest`: a
`Function`-kind symbol with argument count the number of declared
fields, the constructor flag set, return type the struct's type and the
struct's own scope as parameter scope. -/
def structCtorSym (n : Node) (s : Symbol) (c : Char) (rest : List Char) : Symbol :=
  Symbol.mk (structCtorName c rest) 0
    (Ty.mk TypeKind.Function (TyData.funcData
      (FunctionTy.mk (structCtorName c rest) n.stmts.length false true s.typ n.symtab)))

/-! Theorems. -/

/-- Appending a symbol whose name is not yet bound makes it findable. -/
theorem findSym_append_self (xs : List Symbol) (s : Symbol)
    (h : findSym xs s.name = none) : findSym (xs ++ [s]) s.name = some s := by
  induction xs with
  | nil => simp [findSym]
  | cons x rest ih =>
    by_cases hx : x.name = s.name
    · rw [findSym, if_pos hx] at h
      exact absurd h (by simp)
    · rw [List.cons_append, findSym, if_neg hx]
      rw [findSym, if_neg hx] at h
      exact ih h

/-- Defining a fresh symbol makes it resolvable in that scope. -/
theorem resolve_define_fresh (syms : List Symbol) (parent : Option SymTab) (s : Symbol)
    (h : findSym syms s.name = none) :
    (SymTab.Define (SymTab.mk syms parent) s).Resolve s.name = some s := by
  rw [SymTab.Define, h]
  simp only [Option.isSome_none, Bool.false_eq_true, if_false]
  cases parent with
  | none => rw [SymTab.Resolve, findSym_append_self syms s h]
  | some p => rw [SymTab.Resolve, findSym_append_self syms s h]

/-- C6.  For every struct-declaration node visited by constructor
synthesis: if the struct name does not begin with a lowercase letter,
exactly one `InvalidStructName` error is raised and no constructor is
synthesized (the root is returned unchanged); otherwise a `Function`
symbol named by upper-casing the first letter — with argument count the
number of declared fields, the constructor flag set and return type the
struct's type — is defined in the root scope, a synthetic
function-declaration node is appended to the root's children, and
(provided the name is fresh in the root scope, as `Define` requires)
the constructor resolves in the updated root scope. -/
theorem generateStructConstructors_ok (root n : Node) (c : Char) (rest : List Char)
    (s : Symbol)
    (hop : n.op = Op.opStruct)
    (hname : n.token.val.data = c :: rest) :
    (upperChar c = c →
      generateStructConstructors root n
        = some (root, some (SemErr.structNamingLower n.token)))
    ∧ (upperChar c ≠ c → n.sym = some s →
        generateStructConstructors root n
          = some (Node.mk root.op root.token root.left root.right
              (root.stmts ++ [Node.mk Op.opFuncDcl
                (Token.mk "" 0 0 (structCtorName c rest)) none none []
                n.stmts n.symtab (some (structCtorSym n s c rest)) none])
              root.params (root.symtab.Define (structCtorSym n s c rest))
              root.sym root.typ, none)
        ∧ (∀ (rsyms : List Symbol) (rparent : Option SymTab),
            root.symtab = SymTab.mk rsyms rparent →
            findSym rsyms (structCtorName c rest) = none →
            (root.symtab.Define (structCtorSym n s c rest)).Resolve (structCtorName c rest)
              = some (structCtorSym n s c rest))) := by
  constructor
  · intro hup
    simp [generateStructConstructors, hop, hname, hup]
  · intro hup hsym
    constructor
    · simp [generateStructConstructors, hop, hname, hup, hsym, structCtorName, structCtorSym]
    · intro rsyms rparent hst hfresh
      rw [hst]
      exact resolve_define_fresh rsyms rparent (structCtorSym n s c rest) hfresh

/-- C6, witness: the theorem applied to `point { x, x }` under the empty
root scope (the lowercase branch, yielding the constructor `Point` of
arity 2), and to `Point { x }` (the naming-error branch). -/
theorem generateStructConstructors_ok_wit :
    generateStructConstructors rootNode structNode
      = some (Node.mk rootNode.op rootNode.token rootNode.left rootNode.right
          (rootNode.stmts ++ [Node.mk Op.opFuncDcl
            (Token.mk "" 0 0 (structCtorName 'p' ['o', 'i', 'n', 't'])) none none []
            structNode.stmts structNode.symtab
            (some (structCtorSym structNode (Symbol.mk "point" 0 ptTy) 'p' ['o', 'i', 'n', 't']))
            none])
          rootNode.params
          (rootNode.symtab.Define
            (structCtorSym structNode (Symbol.mk "point" 0 ptTy) 'p' ['o', 'i', 'n', 't']))
          rootNode.sym rootNode.typ, none)
    ∧ generateStructConstructors rootNode structNodeU
      = some (rootNode, some (SemErr.structNamingLower structTokU)) :=
  ⟨((generateStructConstructors_ok rootNode structNode 'p' ['o', 'i', 'n', 't']
      (Symbol.mk "point" 0 ptTy) rfl rfl).2 (by decide) rfl).1,
   (generateStructConstructors_ok rootNode structNodeU 'P' ['o', 'i', 'n', 't']
      (Symbol.mk "Point" 0 ptTy) rfl rfl).1 (by decide)⟩

/-- C1 (amended).  For every function-call node whose callee resolves to
a function, `typeCheck` reports `TooFewArgs` when the argument count is
below the declared arity and `TooManyArgs` when it exceeds the arity of
a non-variadic callee; in either arity-failure case checking of the node
aborts at once: the supplied argument expressions are *not* type-checked
(the arity error is the only error reported and the node, its argument
list included, is returned unchanged). -/
theorem typeCheck_call_arity (fuel : Nat) (fctx : Option FunctionTy)
    (tok : Token) (lft rgt : Option Node) (stmts params : List Node)
    (tab : SymTab) (sym : Option Symbol) (typ : Option Ty)
    (s : Symbol) (ft : FunctionTy)
    (hres : tab.Resolve tok.val = some s)
    (hfn : s.typ = Ty.mk TypeKind.Function (TyData.funcData ft)) :
    (stmts.length < ft.argCount →
      typeCheck (fuel + 1) fctx (Node.mk Op.opFuncCall tok lft rgt stmts params tab sym typ)
        = some (Node.mk Op.opFuncCall tok lft rgt stmts params tab sym typ,
            [SemErr.tooFewArgs tok]))
    ∧ (ft.argCount < stmts.length → ft.isVariadic = false →
      typeCheck (fuel + 1) fctx (Node.mk Op.opFuncCall tok lft rgt stmts params tab sym typ)
        = some (Node.mk Op.opFuncCall tok lft rgt stmts params tab sym typ,
            [SemErr.tooManyArgs tok])) := by
  constructor
  · intro hlt
    simp [typeCheck, typeCheckStep, hres, hfn, Ty.Is, Ty.kind, Ty.AsFunction, hlt]
  · intro hgt hvar
    have h1 : ¬ stmts.length < ft.argCount := Nat.lt_asymm hgt
    simp [typeCheck, typeCheckStep, hres, hfn, Ty.Is, Ty.kind, Ty.AsFunction, h1, hgt, hvar]

/-- C1, counterexample to the claim as stated: calling the 2-arity
non-variadic `f` with one argument `u` reports only `TooFewArgs`; the
argument `u` is an unresolvable identifier which, when type checked on
its own, yields an `unknownVar` error — that error does not appear in
the call's result, so the supplied arguments were not type-checked. -/
theorem typeCheck_call_arity_cex :
    (typeCheck 3 none callNode1).map Prod.snd = some [SemErr.tooFewArgs tokF]
    ∧ SemErr.unknownVar tokU ∉ [SemErr.tooFewArgs tokF]
    ∧ (typeCheck 3 none argU).map Prod.snd = some [SemErr.unknownVar tokU] := by
  exact ⟨rfl, by decide, rfl⟩

/-- C1, witness: the amended theorem applied to the concrete calls
`f(u)` (too few) and `f(u, u, u)` (too many). -/
theorem typeCheck_call_arity_wit :
    typeCheck 3 none callNode1 = some (callNode1, [SemErr.tooFewArgs tokF])
    ∧ typeCheck 3 none callNode3 = some (callNode3, [SemErr.tooManyArgs tokF]) :=
  ⟨(typeCheck_call_arity 2 none tokF none none [argU] [] tabF none none symF fnTy2
      rfl rfl).1 (by decide),
   (typeCheck_call_arity 2 none tokF none none [argU, argU, argU] [] tabF none none symF fnTy2
      rfl rfl).2 (by decide) rfl⟩

/-- C2 (amended).  For every `if`/`else-if` node whose condition
type-checks to a non-Boolean type, `typeCheck` records one mismatch
error and assigns no type to the node, and checking of the node stops
there: the body statements are *not* type-checked and a chained
`else-if` in the right child is *not* type-checked (both are returned
unchanged, contributing no errors). -/
theorem typeCheck_if_nonbool (fuel : Nat) (fctx : Option FunctionTy) (op : Op)
    (tok : Token) (l : Node) (rgt : Option Node) (stmts params : List Node)
    (tab : SymTab) (sym : Option Symbol) (typ : Option Ty)
    (l' : Node) (el : List SemErr) (lt : Ty)
    (hop : op = Op.opIf ∨ op = Op.opElseIf)
    (hl : typeCheck fuel fctx l = some (l', el))
    (ht : l'.typ = some lt)
    (hk : lt.kind ≠ TypeKind.Boolean) :
    typeCheck (fuel + 1) fctx (Node.mk op tok (some l) rgt stmts params tab sym typ)
      = some (Node.mk op tok (some l') rgt stmts params tab sym typ,
          el ++ [SemErr.mismatchedTypes l'.token (kindStr lt.kind) (kindStr TypeKind.Boolean)]) := by
  rcases hop with h | h <;> subst h <;>
    simp [typeCheck, typeCheckStep, hl, ht, hk]

/-- C2, counterexample to the claim as stated: `if 1 { u }` (condition
of type `Integer`, body the unresolvable identifier `u`) reports only
the condition mismatch; the body's own `unknownVar` error does not
appear, so the body statements were not type-checked. -/
theorem typeCheck_if_nonbool_cex :
    (typeCheck 3 none ifNode).map Prod.snd
      = some [SemErr.mismatchedTypes tokC "Integer" "Boolean"]
    ∧ SemErr.unknownVar tokU ∉ [SemErr.mismatchedTypes tokC "Integer" "Boolean"]
    ∧ (typeCheck 3 none argU).map Prod.snd = some [SemErr.unknownVar tokU]
    ∧ (typeCheck 3 none ifNode).map (fun p => p.1.typ) = some none := by
  exact ⟨rfl, by decide, rfl, rfl⟩

/-- C3 (amended).  For every binary arithmetic/boolean operator node
(`+ - * / and or`) whose two operands both received types, `typeCheck`
validates the left operand's kind against the operator's table first:
if it is invalid, one `InvalidOperatorType` error is recorded for the
left operand and checking aborts without validating the right operand;
if the left is valid and the right invalid, one error is recorded for
the right operand and checking aborts; only when both kinds are valid
does it require left kind = right kind and set the node's type to the
left operand's type. -/
theorem typeCheck_binop_operand_check (fuel : Nat) (fctx : Option FunctionTy) (op : Op)
    (tok : Token) (l r : Node) (stmts params : List Node) (tab : SymTab)
    (sym : Option Symbol) (typ : Option Ty)
    (l' r' : Node) (el er : List SemErr) (lt rt : Ty)
    (hop : op = Op.opAnd ∨ op = Op.opOr ∨ op = Op.opAdd ∨ op = Op.opMul ∨
      op = Op.opMin ∨ op = Op.opDiv)
    (hl : typeCheck fuel fctx l = some (l', el))
    (hr : typeCheck fuel fctx r = some (r', er))
    (hlt : l'.typ = some lt)
    (hrt : r'.typ = some rt) :
    (isValidOperator op lt.kind = false →
      typeCheck (fuel + 1) fctx (Node.mk op tok (some l) (some r) stmts params tab sym typ)
        = some (Node.mk op tok (some l') (some r') stmts params tab sym typ,
            el ++ er ++ [SemErr.invalidOperatorType l'.token lt.Name tok.val]))
    ∧ (isValidOperator op lt.kind = true → isValidOperator op rt.kind = false →
      typeCheck (fuel + 1) fctx (Node.mk op tok (some l) (some r) stmts params tab sym typ)
        = some (Node.mk op tok (some l') (some r') stmts params tab sym typ,
            el ++ er ++ [SemErr.invalidOperatorType r'.token rt.Name tok.val]))
    ∧ (isValidOperator op lt.kind = true → isValidOperator op rt.kind = true →
      typeCheck (fuel + 1) fctx (Node.mk op tok (some l) (some r) stmts params tab sym typ)
        = some (Node.mk op tok (some l') (some r') stmts params tab sym (some lt),
            el ++ er ++
              (if lt.kind ≠ rt.kind then [SemErr.mismatchedTypes l'.token lt.Name rt.Name]
               else []))) := by
  refine ⟨fun hv1 => ?_, fun hv1 hv2 => ?_, fun hv1 hv2 => ?_⟩ <;>
    rcases hop with h | h | h | h | h | h <;> subst h <;>
    simp [typeCheck, typeCheckStep, hl, hr, hlt, hrt, hv1] <;>
    simp [hv2]

/-- C3, counterexample to the claim as stated: in `"a" and "b"` both
operand kinds are `String`, invalid for `and`, yet the result contains
exactly one `InvalidOperatorType` error (for the left operand at
`tokS1`) and none for the right operand — the operands are not
validated independently. -/
theorem typeCheck_binop_cex :
    (typeCheck 3 none andNode).map Prod.snd
      = some [SemErr.invalidOperatorType tokS1 "String" "and"]
    ∧ SemErr.invalidOperatorType tokS2 "String" "and"
        ∉ [SemErr.invalidOperatorType tokS1 "String" "and"]
    ∧ isValidOperator Op.opAnd TypeKind.String = false := by
  exact ⟨rfl, by decide, rfl⟩

/-- C3, witness: the amended theorem applied to `"a" and "b"`. -/
theorem typeCheck_binop_operand_check_wit :
    typeCheck 2 none andNode
      = some (Node.mk Op.opAnd andTok (some litS1') (some litS2') [] [] tabF none none,
          [SemErr.invalidOperatorType tokS1 "String" "and"]) :=
  (typeCheck_binop_operand_check 1 none Op.opAnd andTok litS1 litS2 [] [] tabF none none
    litS1' litS2' [] [] strType strType (Or.inl rfl) rfl rfl rfl rfl).1 rfl

/-- C4 (amended).  For every array-index node `left[right]`: if
`right`'s type is not `Integer`, exactly one `NonIntegerIndex` error is
produced and the node gets no type; otherwise indexing a `String`-typed
`left` yields the single-byte type, and indexing a `left` of any other
type — an `Array<T>` included — yields the left operand's own type (so
an `Array<T>` index expression is typed `Array<T>`, not `T`). -/
theorem typeCheck_array_index (fuel : Nat) (fctx : Option FunctionTy)
    (tok : Token) (l r : Node) (stmts params : List Node) (tab : SymTab)
    (sym : Option Symbol) (typ : Option Ty)
    (l' r' : Node) (el er : List SemErr) (lt rt : Ty)
    (hl : typeCheck fuel fctx l = some (l', el))
    (hr : typeCheck fuel fctx r = some (r', er))
    (hlt : l'.typ = some lt)
    (hrt : r'.typ = some rt) :
    (rt.kind ≠ TypeKind.Integer →
      typeCheck (fuel + 1) fctx (Node.mk Op.opArray tok (some l) (some r) stmts params tab sym typ)
        = some (Node.mk Op.opArray tok (some l') (some r') stmts params tab sym typ,
            el ++ er ++ [SemErr.nonIntegerIndex r'.token (kindStr rt.kind)]))
    ∧ (rt.kind = TypeKind.Integer →
      typeCheck (fuel + 1) fctx (Node.mk Op.opArray tok (some l) (some r) stmts params tab sym typ)
        = some (Node.mk Op.opArray tok (some l') (some r') stmts params tab sym
            (some (if lt.Is TypeKind.String then byteType else lt)), el ++ er)) := by
  constructor
  · intro hk
    simp [typeCheck, typeCheckStep, hl, hr, hlt, hrt, Ty.Is, hk]
  · intro hk
    simp [typeCheck, typeCheckStep, hl, hr, hlt, hrt, Ty.Is, hk]

/-- C4, counterexample to the claim as stated: `xs[1]` where `xs` is
typed `Array<Integer>` type-checks to a type of kind `Array` (the left
operand's own type), not to the element type `Integer`. -/
theorem typeCheck_array_elem_cex :
    (typeCheck 3 none idxNode).map (fun p => p.1.typ.map Ty.kind) = some (some TypeKind.Array)
    ∧ TypeKind.Array ≠ TypeKind.Integer
    ∧ (typeCheck 2 none identXs).map (fun p => p.1.typ) = some (some arrTy) := by
  exact ⟨rfl, by decide, rfl⟩

/-- C4, witness: the amended theorem applied to `xs[1]` with `xs` of
type `Array<Integer>` (yielding `Array<Integer>`), exercising the
Integer-index branch. -/
theorem typeCheck_array_index_wit :
    typeCheck 2 none idxNode
      = some (Node.mk Op.opArray idxTok (some identXs') (some litInt') [] [] tabF none
          (some arrTy), []) :=
  (typeCheck_array_index 1 none idxTok identXs litInt [] [] tabF none none
    identXs' litInt' [] [] arrTy intType rfl rfl rfl rfl).2 rfl

/-- C5 (amended).  The implicit-`length` special case keys on the left
operand's resolved *symbol*: for every dot node whose right side is the
identifier `length` and whose left operand's symbol is `String`-typed
(as for string literals and string variables), the node type-checks to
`Integer` via an implicit field at offset 0 and no struct lookup is
performed.  (A `String`-typed operand whose symbol is not
`String`-typed — such as a call, whose symbol is the callee — takes the
struct path instead; see the counterexample.) -/
theorem typeCheck_dot_length (fuel : Nat) (fctx : Option FunctionTy)
    (tok : Token) (l r : Node) (stmts params : List Node) (tab : SymTab)
    (sym : Option Symbol) (typ : Option Ty)
    (l' : Node) (el : List SemErr) (lt : Ty) (ls : Symbol)
    (hl : typeCheck fuel fctx l = some (l', el))
    (ht : l'.typ = some lt)
    (hsym : l'.sym = some ls)
    (hstr : ls.typ.Is TypeKind.String = true)
    (hrop : r.op = Op.opIdentifier)
    (hrval : r.token.val = "length") :
    typeCheck (fuel + 1) fctx (Node.mk Op.opDot tok (some l) (some r) stmts params tab sym typ)
      = some (Node.mk Op.opDot tok (some l')
          (some (r.withSymTyp (some (Symbol.mk "length" 0 intType)) (some intType)))
          stmts params tab sym (some intType), el) := by
  simp [typeCheck, typeCheckStep, hl, ht, hsym, hstr, hrop, hrval]

/-- C5, counterexample to the claim as stated: in `g().length` the left
operand `g()` is `String`-typed (third conjunct), yet the node does not
type-check to `Integer`: the special case inspects the left operand's
symbol (here the callee `g`, of `Function` type), so the struct path
runs and reports `NotStruct`, leaving the node untyped. -/
theorem typeCheck_dot_length_cex :
    (typeCheck 3 none dotNode).map Prod.snd = some [SemErr.notStruct tokG]
    ∧ (typeCheck 3 none dotNode).map (fun p => p.1.typ) = some none
    ∧ (typeCheck 2 none callG).map (fun p => p.1.typ) = some (some strType) := by
  exact ⟨rfl, rfl, rfl⟩

/-- C5, witness: the amended theorem applied to `"a".length`. -/
theorem typeCheck_dot_length_wit :
    typeCheck 2 none dotNodeL
      = some (Node.mk Op.opDot dotTok (some litS1')
          (some (identLen.withSymTyp (some (Symbol.mk "length" 0 intType)) (some intType)))
          [] [] tabG none (some intType), []) :=
  typeCheck_dot_length 1 none dotTok litS1 identLen [] [] tabG none none
    litS1' [] strType (Symbol.mk "a" 0 strType) rfl rfl rfl rfl rfl rfl

/-- C10.  For every binary arithmetic/boolean operator node whose two
operands both have types that are individually accepted by the operator
but whose kinds differ, `typeCheck` records a `MismatchedTypes` error
and nevertheless assigns the node the left operand's type, so the node
appears typed to its parent despite the recorded error. -/
theorem typeCheck_binop_mismatch_typed (fuel : Nat) (fctx : Option FunctionTy) (op : Op)
    (tok : Token) (l r : Node) (stmts params : List Node) (tab : SymTab)
    (sym : Option Symbol) (typ : Option Ty)
    (l' r' : Node) (el er : List SemErr) (lt rt : Ty)
    (hop : op = Op.opAnd ∨ op = Op.opOr ∨ op = Op.opAdd ∨ op = Op.opMul ∨
      op = Op.opMin ∨ op = Op.opDiv)
    (hl : typeCheck fuel fctx l = some (l', el))
    (hr : typeCheck fuel fctx r = some (r', er))
    (hlt : l'.typ = some lt)
    (hrt : r'.typ = some rt)
    (hvl : isValidOperator op lt.kind = true)
    (hvr : isValidOperator op rt.kind = true)
    (hne : lt.kind ≠ rt.kind) :
    typeCheck (fuel + 1) fctx (Node.mk op tok (some l) (some r) stmts params tab sym typ)
      = some (Node.mk op tok (some l') (some r') stmts params tab sym (some lt),
          el ++ er ++ [SemErr.mismatchedTypes l'.token lt.Name rt.Name]) := by
  rcases hop with h | h | h | h | h | h <;> subst h <;>
    simp [typeCheck, typeCheckStep, hl, hr, hlt, hrt, hvl, hvr, hne]

/-- C10, witness: `1 + "b"` (`Integer` and `String`, both accepted by
`+`) reports one mismatch yet the node is typed `Integer`. -/
theorem typeCheck_binop_mismatch_typed_wit :
    typeCheck 2 none addNode
      = some (Node.mk Op.opAdd addTok (some litInt') (some litS2') [] [] tabF none
          (some intType), [SemErr.mismatchedTypes tokC "Integer" "String"]) :=
  typeCheck_binop_mismatch_typed 1 none Op.opAdd addTok litInt litS2 [] [] tabF none none
    litInt' litS2' [] [] intType strType
    (Or.inr (Or.inr (Or.inl rfl))) rfl rfl rfl rfl rfl rfl (by decide)

/-- Two function-call nodes that differ only in their argument lists
check the same way whenever the argument lists have the same length and
the same `checkAll` outcome: same errors, same resulting type, same
resolved symbol. -/
theorem funcCallCheck_congr (fuel : Nat) (fctx : Option FunctionTy) (rtok : Token)
    (params : List Node) (rtab : SymTab) (sym : Option Symbol) (typ : Option Ty)
    (xs ys : List Node)
    (hlen : xs.length = ys.length)
    (hargs : checkAll (fun m => typeCheck fuel fctx m) xs
      = checkAll (fun m => typeCheck fuel fctx m) ys) :
    ((typeCheck (fuel + 1) fctx
        (Node.mk Op.opFuncCall rtok none none xs params rtab sym typ)).map Prod.snd
      = (typeCheck (fuel + 1) fctx
        (Node.mk Op.opFuncCall rtok none none ys params rtab sym typ)).map Prod.snd)
    ∧ ((typeCheck (fuel + 1) fctx
        (Node.mk Op.opFuncCall rtok none none xs params rtab sym typ)).map (fun p => p.1.typ)
      = (typeCheck (fuel + 1) fctx
        (Node.mk Op.opFuncCall rtok none none ys params rtab sym typ)).map (fun p => p.1.typ))
    ∧ ((typeCheck (fuel + 1) fctx
        (Node.mk Op.opFuncCall rtok none none xs params rtab sym typ)).map (fun p => p.1.sym)
      = (typeCheck (fuel + 1) fctx
        (Node.mk Op.opFuncCall rtok none none ys params rtab sym typ)).map (fun p => p.1.sym)) := by
  cases hres : rtab.Resolve rtok.val with
  | none => simp [typeCheck, typeCheckStep, hres, Node.typ, Node.sym]
  | some s =>
    by_cases hfn : s.typ.Is TypeKind.Function
    · cases hcast : s.typ.AsFunction with
      | none => simp [typeCheck, typeCheckStep, hres, hfn, hcast]
      | some ft =>
        by_cases hlt : xs.length < ft.argCount
        · have hlt2 : ys.length < ft.argCount := by rw [← hlen]; exact hlt
          simp [typeCheck, typeCheckStep, hres, hfn, hcast, hlt, hlt2, Node.typ, Node.sym]
        · have hlt2 : ¬ ys.length < ft.argCount := by rw [← hlen]; exact hlt
          by_cases hgt : xs.length > ft.argCount ∧ ft.isVariadic = false
          · have hgt2 : ys.length > ft.argCount ∧ ft.isVariadic = false := by
              rw [← hlen]; exact hgt
            simp [typeCheck, typeCheckStep, hres, hfn, hcast, hlt, hlt2, hgt, hgt2,
              Node.typ, Node.sym]
          · have hgt2 : ¬ (ys.length > ft.argCount ∧ ft.isVariadic = false) := by
              rw [← hlen]; exact hgt
            simp [typeCheck, typeCheckStep, hres, hfn, hcast, hlt, hlt2, hgt, hgt2, hargs]
    · simp [typeCheck, typeCheckStep, hres, hfn, Node.typ, Node.sym]

/-- C7.  For every dot node whose right side is a function call,
`typeCheck` rewrites the node into a plain function-call node — the
operator becomes `opFuncCall`, the token and scope are taken from the
call, the argument list is the (already checked) receiver followed by
the call's arguments, and the `left`/`right` slots are cleared — and
re-dispatches it through the ordinary function-call rule (first
conjunct: the dot node's result is exactly that re-dispatch).  When the
receiver's checking is error-free and stable, `a.call(x)` checks
identically to the direct call `call(a, x)`: same error list, same
resulting type, same resolved symbol (remaining conjuncts). -/
theorem typeCheck_dot_call_desugar (fuel : Nat) (fctx : Option FunctionTy)
    (tok rtok : Token) (a : Node) (rleft rright : Option Node)
    (rstats rparams : List Node) (rtab : SymTab)
    (rsym : Option Symbol) (rtyp : Option Ty)
    (stmts params : List Node) (tab : SymTab) (sym : Option Symbol) (typ : Option Ty)
    (a' : Node) (t : Ty)
    (ha1 : typeCheck (fuel + 1) fctx a = some (a', []))
    (ha0 : typeCheck fuel fctx a = some (a', []))
    (hstable : typeCheck fuel fctx a' = some (a', []))
    (ht : a'.typ = some t) :
    typeCheck (fuel + 1 + 1) fctx
        (Node.mk Op.opDot tok (some a)
          (some (Node.mk Op.opFuncCall rtok rleft rright rstats rparams rtab rsym rtyp))
          stmts params tab sym typ)
      = typeCheck (fuel + 1) fctx
          (Node.mk Op.opFuncCall rtok none none (a' :: rstats) params rtab sym typ)
    ∧ ((typeCheck (fuel + 1) fctx
          (Node.mk Op.opFuncCall rtok none none (a' :: rstats) params rtab sym typ)).map Prod.snd
      = (typeCheck (fuel + 1) fctx
          (Node.mk Op.opFuncCall rtok none none (a :: rstats) params rtab sym typ)).map Prod.snd)
    ∧ ((typeCheck (fuel + 1) fctx
          (Node.mk Op.opFuncCall rtok none none (a' :: rstats) params rtab sym typ)).map
            (fun p => p.1.typ)
      = (typeCheck (fuel + 1) fctx
          (Node.mk Op.opFuncCall rtok none none (a :: rstats) params rtab sym typ)).map
            (fun p => p.1.typ))
    ∧ ((typeCheck (fuel + 1) fctx
          (Node.mk Op.opFuncCall rtok none none (a' :: rstats) params rtab sym typ)).map
            (fun p => p.1.sym)
      = (typeCheck (fuel + 1) fctx
          (Node.mk Op.opFuncCall rtok none none (a :: rstats) params rtab sym typ)).map
            (fun p => p.1.sym)) := by
  have hargs : checkAll (fun m => typeCheck fuel fctx m) (a' :: rstats)
      = checkAll (fun m => typeCheck fuel fctx m) (a :: rstats) := by
    simp [checkAll, hstable, ha0]
  have hcongr := funcCallCheck_congr fuel fctx rtok params rtab sym typ
    (a' :: rstats) (a :: rstats) (by simp) hargs
  refine ⟨?_, hcongr.1, hcongr.2.1, hcongr.2.2⟩
  have h1 : typeCheck (fuel + 1 + 1) fctx
      (Node.mk Op.opDot tok (some a)
        (some (Node.mk Op.opFuncCall rtok rleft rright rstats rparams rtab rsym rtyp))
        stmts params tab sym typ)
      = match typeCheck (fuel + 1) fctx
          (Node.mk Op.opFuncCall rtok none none (a' :: rstats) params rtab sym typ) with
        | none => none
        | some (m', em) => some (m', [] ++ em) := by
    rw [typeCheck]
    simp [typeCheckStep, ha1, ht, Node.op, Node.token, Node.stmts, Node.symtab]
  rw [h1]
  cases typeCheck (fuel + 1) fctx
      (Node.mk Op.opFuncCall rtok none none (a' :: rstats) params rtab sym typ) with
  | none => rfl
  | some r => cases r with | mk m' em => simp

/-- C7, witness: `a.call(1)` with `a` a `String` variable and `call` a
2-arity function checks to the same result as the rewritten call node
`call(a, 1)`, and both carry the callee's return type. -/
theorem typeCheck_dot_call_desugar_wit :
    typeCheck 3 none dotCallNode = typeCheck 2 none rewrittenCallNode
    ∧ (typeCheck 2 none rewrittenCallNode).map Prod.snd
      = (typeCheck 2 none directCallNode).map Prod.snd
    ∧ (typeCheck 3 none dotCallNode).map (fun p => p.1.typ) = some (some intType) :=
  ⟨(typeCheck_dot_call_desugar 1 none (Token.mk "t.cl" 9 2 ".") tokCall identA none none
      [litInt] [] tabC none none [] [] tabC none none identA' strType
      rfl rfl rfl rfl).1,
   (typeCheck_dot_call_desugar 1 none (Token.mk "t.cl" 9 2 ".") tokCall identA none none
      [litInt] [] tabC none none [] [] tabC none none identA' strType
      rfl rfl rfl rfl).2.1,
   by rfl⟩

/-- `syntaxError` never moves the input position. -/
theorem synError_pos (ks : List LKind) (st : PState) : (synError ks st).pos = st.pos := by
  unfold synError; split <;> rfl

/-- `syntaxError` never changes the token stream. -/
theorem synError_tokens (ks : List LKind) (st : PState) :
    (synError ks st).tokens = st.tokens := by
  unfold synError; split <;> rfl

/-- `syntaxError` leaves the parser in discard mode. -/
theorem synError_discard (ks : List LKind) (st : PState) :
    (synError ks st).discard = (st.discard || true) := by
  unfold synError; split <;> simp_all

/-- Error accumulation across a whole `need` run (returning or
panicking): no error is added when the parser is already in discard
mode or the current token already matches; exactly one syntax error is
added otherwise, however many tokens the recovery scan skips. -/
theorem needF_errs (fuel : Nat) (k : LKind) (st st₂ : PState)
    (h : (∃ t₂, needF fuel k st = PRes.ok t₂ st₂) ∨ needF fuel k st = PRes.eofPanic st₂) :
    st₂.errs = st.errs ++
      (if st.discard then []
       else match st.tokens.get? st.pos with
         | some t => if t.kind = k then []
           else [PErr.unexpectedTok (st.tokens.getD st.pos defTok) [k]]
         | none => []) := by
  induction fuel generalizing st with
  | zero =>
    rcases h with ⟨t₂, h⟩ | h <;> simp [needF] at h
  | succ fuel ih =>
    cases hcur : st.tokens.get? st.pos with
    | none =>
      rw [needF, hcur] at h
      rcases h with ⟨t₂, h⟩ | h <;> exact absurd h (by simp)
    | some t =>
      have hstep : needF (fuel + 1) k st
          = if t.kind = k then pnext { st with discard := false }
            else (pnext (synError [k] st)).bind fun _ st' => needF fuel k st' := by
        rw [needF, hcur]
      rw [hstep] at h
      by_cases hk : t.kind = k
      · rw [if_pos hk] at h
        by_cases hb : st.pos + 1 ≥ st.tokens.length
        · have hpn : pnext { st with discard := false }
              = PRes.eofPanic { st with discard := false } := by
            simp [pnext, hb]
          rw [hpn] at h
          rcases h with ⟨t₂, h⟩ | h
          · exact absurd h (by simp)
          · cases h
            simp [hcur, hk]
        · have hpn : pnext { st with discard := false }
              = PRes.ok (st.tokens.getD st.pos defTok)
                  { st with discard := false, pos := st.pos + 1 } := by
            simp [pnext, hb]
          rw [hpn] at h
          rcases h with ⟨t₂, h⟩ | h
          · cases h
            simp [hcur, hk]
          · exact absurd h (by simp)
      · rw [if_neg hk] at h
        by_cases hb : st.pos + 1 ≥ st.tokens.length
        · have hpn : pnext (synError [k] st) = PRes.eofPanic (synError [k] st) := by
            simp [pnext, synError_pos, synError_tokens, hb]
          rw [hpn] at h
          simp only [PRes.bind] at h
          rcases h with ⟨t₂, h⟩ | h
          · exact absurd h (by simp)
          · cases h
            by_cases hd : st.discard
            · simp [synError, hd, hcur, hk]
            · simp [synError, hd, hcur, hk]
        · have hpn : pnext (synError [k] st)
              = PRes.ok ((synError [k] st).tokens.getD (synError [k] st).pos defTok)
                  { synError [k] st with pos := (synError [k] st).pos + 1 } := by
            simp [pnext, synError_pos, synError_tokens, hb]
          rw [hpn] at h
          simp only [PRes.bind] at h
          have hIH := ih ({ synError [k] st with pos := (synError [k] st).pos + 1 }) h
          rw [hIH]
          by_cases hd : st.discard
          · simp [synError, hd, hcur, hk]
          · simp [synError, hd, hcur, hk]

/-- C8.  If the parser runs out of tokens while expecting more input at
any recursion depth, the resulting `errUnexpectedEof` panic
short-circuits every parsing computation sequenced after it (first
conjunct), is absorbed exactly once at the `Parse` loop into an ordinary
`returned` outcome (second conjunct, shown for an abort anywhere inside
a declaration parse), and `Parse` still returns exactly the errors
accumulated at the moment of the abort (the `returned` value carries
`st'.errs`); `Parse` itself is that loop run from the initial state
(third conjunct). -/
theorem parse_eof_abort (fuel : Nat) (root : PNode) (st st' : PState) (t : LToken)
    (ht : st.tokens.get? st.pos = some t)
    (hfn : t.kind = LKind.Fn)
    (habort : fnDeclaration fuel st = PRes.eofPanic st') :
    (∀ (α β : Type) (kont : α → PState → PRes β) (s : PState),
      PRes.bind (PRes.eofPanic s) kont = PRes.eofPanic s)
    ∧ parseLoopF (fuel + 1) root st = ParseOut.returned st'.errs root
    ∧ (∀ (ts : List LToken) (ex : List PNode) (f : Nat),
        Parse f ts ex = parseLoopF f (initRoot ex) (initState ts ex)) := by
  refine ⟨fun α β kont s => rfl, ?_, fun ts ex f => rfl⟩
  rw [parseLoopF, ht]
  simp [hfn, habort]

/-- C8, witness: with the token stream `x fn` the parser records one
syntax error for `x`, then aborts inside `fnDeclaration` (the `fn`
header runs out of tokens); the abort is absorbed and that one error is
returned, both for the loop step from the mid-parse state and for the
whole `Parse` run. -/
theorem parse_eof_abort_wit :
    parseLoopF 2 (initRoot []) abortedState
      = ParseOut.returned [PErr.unexpectedTok tkI [LKind.Fn, LKind.EOF]] (initRoot [])
    ∧ Parse 5 [tkI, tkFn] []
      = ParseOut.returned [PErr.unexpectedTok tkI [LKind.Fn, LKind.EOF]] (initRoot []) :=
  ⟨(parse_eof_abort 1 (initRoot []) abortedState
      { abortedState with discard := false } tkFn rfl rfl rfl).2.1,
   by rfl⟩

/-- C9.  Panic-mode recovery: once a syntax error is recorded the parser
is in discard mode and `syntaxError` records nothing further (first
conjunct); out of discard mode it records exactly one error and enters
discard mode (second conjunct); on an unexpected token `need` advances
exactly one token and retries (third conjunct); and a whole `need` run
adds exactly one syntax diagnostic when it starts out of discard mode
facing a mismatched token, and none otherwise — discard mode is left
only by consuming a matching token (fourth conjunct). -/
theorem parser_panic_mode (st : PState) (ks : List LKind) (k : LKind) (fuel : Nat) :
    (st.discard = true → synError ks st = st)
    ∧ (st.discard = false → synError ks st
        = { st with
            discard := true
            errs := st.errs ++ [PErr.unexpectedTok (st.tokens.getD st.pos defTok) ks] })
    ∧ (∀ (t u : LToken) (st' : PState), st.tokens.get? st.pos = some t → t.kind ≠ k →
        pnext (synError [k] st) = PRes.ok u st' →
        needF (fuel + 1) k st = needF fuel k st' ∧ st'.pos = st.pos + 1)
    ∧ (∀ (t₂ : LToken) (st₂ : PState),
        needF fuel k st = PRes.ok t₂ st₂ →
        st₂.errs = st.errs ++
          (if st.discard then []
           else match st.tokens.get? st.pos with
             | some t => if t.kind = k then []
               else [PErr.unexpectedTok (st.tokens.getD st.pos defTok) [k]]
             | none => [])) := by
  refine ⟨fun hd => by simp [synError, hd], fun hd => by simp [synError, hd], ?_, ?_⟩
  · intro t u st' hcur hk hnext
    constructor
    · rw [needF, hcur]
      simp [hk, hnext, PRes.bind]
    · have hb : ¬ (synError [k] st).pos + 1 ≥ (synError [k] st).tokens.length := by
        intro hb
        simp [pnext, hb] at hnext
      simp only [pnext, if_neg hb] at hnext
      cases hnext
      simp [synError_pos]
  · intro t₂ st₂ h
    exact needF_errs fuel k st st₂ (Or.inl ⟨t₂, h⟩)

/-- C9, witness: scanning for `)` from the state whose input is
`x ( ) <eof>` (mismatch at `x`, then at `(`) returns having recorded
exactly the one syntax error for `x`. -/
theorem parser_panic_mode_wit :
    ({ pos := 3, tokens := [tkI, tkL, tkR, tkEofTok]
       errs := [PErr.unexpectedTok tkI [LKind.RParen]], discard := false
       symtab := [] } : PState).errs
      = stTest.errs ++
        (if stTest.discard then []
         else match stTest.tokens.get? stTest.pos with
           | some t => if t.kind = LKind.RParen then []
             else [PErr.unexpectedTok (stTest.tokens.getD stTest.pos defTok) [LKind.RParen]]
           | none => []) :=
  (parser_panic_mode stTest [] LKind.RParen 5).2.2.2 tkR _ (by rfl)

/-- C2, witness: the amended theorem applied to `if 1 { u }`. -/
theorem typeCheck_if_nonbool_wit :
    typeCheck 3 none ifNode
      = some (Node.mk Op.opIf ifTok
          (some (Node.mk .opLit tokC none none [] [] tabF
            (some (Symbol.mk "1" 0 intType)) (some intType)))
          none [argU] [] tabF none none,
          [SemErr.mismatchedTypes tokC "Integer" "Boolean"]) :=
  typeCheck_if_nonbool 2 none Op.opIf ifTok litInt none [argU] [] tabF none none
    (Node.mk .opLit tokC none none [] [] tabF (some (Symbol.mk "1" 0 intType)) (some intType))
    [] intType (Or.inl rfl) rfl rfl (by decide)

end Clara
